import Mathlib

/-!
Verification development for the clusterfutures repository (files cfut/__init__.py
and the legacy single-file cfut.py).  The Python source is shallowly embedded:
pure computations become Lean functions, the filesystem becomes an association
list from paths to file contents, raised Python exceptions become an error
component threaded through the embedded functions, and the serialization codec
is kept abstract (a parameter, or the identity on an explicit payload type).
-/

namespace Cfut

/-! ### Paths, a filesystem model, and Python errors -/

abbrev Path := String

/-- Python errors that the embedded code can raise. -/
inductive PyError where
  | osError
  | keyError
  | typeError
  | decodeError
  | fileNotFound
  | zeroDivision
deriving DecidableEq, Repr

/-- A filesystem: an association list from paths to file contents of type C. -/
abbrev FsOf (C : Type) := List (Path × C)

/-- Read a file: Python open(p) followed by read; none when the file is absent. -/
def readFile (p : Path) (fs : FsOf C) : Option C :=
  fs.lookup p

/-- Embeds os.unlink: removes the file, raising OSError when it does not exist. -/
def fsUnlink (p : Path) (fs : FsOf C) : Except PyError (FsOf C) :=
  if (fs.lookup p).isSome then
    .ok (fs.filter (fun e => !(e.1 == p)))
  else
    .error .osError

/-- Write (create or overwrite) a file. -/
def fsWrite (p : Path) (c : C) (fs : FsOf C) : FsOf C :=
  (p, c) :: fs.filter (fun e => !(e.1 == p))

/-! ### Python percent-s formatting and the artifact name templates

The source names all communication artifacts through percent-s format strings
(src/cfut.py lines 10-12).  pyFormat embeds the Python expression fmt % arg
for a format string containing one percent-s hole. -/

def pyFormatAux : List Char → List Char → List Char
  | [], _ => []
  | c :: rest, arg =>
    if c = '%' then
      match rest with
      | 's' :: rest2 => arg ++ rest2
      | _ => c :: pyFormatAux rest arg
    else c :: pyFormatAux rest arg

def pyFormat (fmt arg : String) : String :=
  ⟨pyFormatAux fmt.data arg.data⟩

/-- src/cfut.py line 10. -/
def INFILE_FMT : String := "cfut.in.%s.pickle"

/-- src/cfut.py line 11. -/
def OUTFILE_FMT : String := "cfut.out.%s.pickle"

/-- src/cfut.py line 12 and cfut/__init__.py line 13 (basename). -/
def LOGFILE_FMT : String := "cfut.log.%s.txt"

theorem infile_name_eq (w : String) :
    pyFormat INFILE_FMT w = "cfut.in." ++ w ++ ".pickle" := by
  cases w with
  | mk data =>
    simp only [pyFormat, INFILE_FMT, String.data]
    rfl

theorem outfile_name_eq (w : String) :
    pyFormat OUTFILE_FMT w = "cfut.out." ++ w ++ ".pickle" := by
  cases w with
  | mk data =>
    simp only [pyFormat, OUTFILE_FMT, String.data]
    rfl

theorem logfile_name_eq (w : String) :
    pyFormat LOGFILE_FMT w = "cfut.log." ++ w ++ ".txt" := by
  cases w with
  | mk data =>
    simp only [pyFormat, LOGFILE_FMT, String.data]
    rfl

/-- The input and output artifact of one WorkerID are distinct files
(their names even have different lengths). -/
theorem infile_ne_outfile (w : String) :
    pyFormat INFILE_FMT w ≠ pyFormat OUTFILE_FMT w := by
  intro h
  have hlen := congrArg String.length h
  rw [infile_name_eq, outfile_name_eq] at hlen
  simp only [String.length_append] at hlen
  have h1 : ("cfut.in." : String).length = 8 := rfl
  have h2 : ("cfut.out." : String).length = 9 := rfl
  rw [h1, h2] at hlen
  omega

/-! ### Completion Watcher: FileWaitThread (cfut/__init__.py lines 22-62)

The waiting dictionary is an association list from artifact path to the
registered opaque value (the JobID).  One iteration of the run loop polls the
registered entries against a filesystem snapshot: every entry whose file now
exists has the callback invoked on its value and is deleted from the waiting
set; the rest are kept.  A multi-iteration run consumes one filesystem
snapshot per poll iteration. -/

/-- One poll iteration of FileWaitThread.run (lines 56-60): the first component
lists the entries reported to the callback (in iteration order), the second is
the waiting set left for the next iteration. -/
def pollStep (snap : List Path) (w : List (Path × J)) :
    List (Path × J) × List (Path × J) :=
  (w.filter (fun e => snap.contains e.1), w.filter (fun e => !(snap.contains e.1)))

/-- A run of the watcher loop over a list of filesystem snapshots, one per
iteration: the list of per-iteration reports, and the final waiting set. -/
def pollRun : List (List Path) → List (Path × J) → List (List (Path × J)) × List (Path × J)
  | [], w => ([], w)
  | snap :: rest, w =>
    let rep := (pollStep snap w).1
    let keep := (pollStep snap w).2
    let r := pollRun rest keep
    (rep :: r.1, r.2)

/-- Index of the first snapshot in which the given path exists. -/
def firstHit : List (List Path) → Path → Option Nat
  | [], _ => none
  | snap :: rest, f =>
    if snap.contains f then some 0 else (firstHit rest f).map (· + 1)

theorem mem_pollRun_reports {snaps : List (List Path)} {w : List (Path × J)}
    {x : Path × J} (h : x ∈ (pollRun snaps w).1.flatten) : x ∈ w := by
  induction snaps generalizing w with
  | nil => simp [pollRun] at h
  | cons snap rest ih =>
    simp only [pollRun, List.flatten_cons, List.mem_append] at h
    rcases h with h | h
    · exact (List.mem_filter.mp h).1
    · exact (List.mem_filter.mp (ih h)).1

theorem mem_pollRun_final {snaps : List (List Path)} {w : List (Path × J)}
    {x : Path × J} (h : x ∈ (pollRun snaps w).2) : x ∈ w := by
  induction snaps generalizing w with
  | nil => simpa [pollRun] using h
  | cons snap rest ih =>
    simp only [pollRun] at h
    exact (List.mem_filter.mp (ih h)).1

/-- Number of occurrences of an element in a list, via a canonical decidable
predicate (avoiding any choice of BEq instance). -/
def occCount {α : Type} [DecidableEq α] (a : α) (l : List α) : Nat :=
  l.countP (fun x => decide (x = a))

theorem occCount_append {α : Type} [DecidableEq α] (a : α) (l₁ l₂ : List α) :
    occCount a (l₁ ++ l₂) = occCount a l₁ + occCount a l₂ :=
  List.countP_append _ _ _

theorem occCount_eq_zero {α : Type} [DecidableEq α] {a : α} {l : List α}
    (h : a ∉ l) : occCount a l = 0 := by
  refine List.countP_eq_zero.mpr (fun b hb => ?_)
  simp only [decide_eq_true_eq]
  rintro rfl
  exact h hb

theorem occCount_eq_one_of_nodup {α : Type} [DecidableEq α] {a : α} {l : List α}
    (hn : l.Nodup) (hm : a ∈ l) : occCount a l = 1 := by
  induction l with
  | nil => cases hm
  | cons x xs ih =>
    rcases List.mem_cons.mp hm with h | hm'
    · subst h
      have h0 : occCount a xs = 0 := occCount_eq_zero (List.nodup_cons.mp hn).1
      simp only [occCount, List.countP_cons] at h0 ⊢
      rw [h0]
      simp
    · have h1 := ih (List.nodup_cons.mp hn).2 hm'
      have hxa : ¬(x = a) := by
        intro he
        rw [he] at hn
        exact (List.nodup_cons.mp hn).1 hm'
      simp only [occCount, List.countP_cons] at h1 ⊢
      rw [h1]
      simp [hxa]

/-- C1: for every entry registered with the Completion Watcher (waiting
dictionary keyed by artifact path, dict keys are unique), the completion
callback is invoked on that entry at most once over any run of poll
iterations: never, if its artifact never appears (and then the entry stays in
the waiting set); exactly once if the artifact appears, namely at the first
poll iteration whose snapshot contains the artifact, after which the entry is
removed from the waiting set and never reported again. -/
theorem watch_entry_reported_once {J : Type} [DecidableEq J]
    (snaps : List (List Path)) (w : List (Path × J)) (f : Path) (v : J)
    (hmem : (f, v) ∈ w) (hnd : (w.map Prod.fst).Nodup) :
    (firstHit snaps f = none →
       (occCount (f, v) (pollRun snaps w).1.flatten = 0 ∧ (f, v) ∈ (pollRun snaps w).2)) ∧
    (∀ i, firstHit snaps f = some i →
       (occCount (f, v) (pollRun snaps w).1.flatten = 1 ∧
        (f, v) ∈ (pollRun snaps w).1.getD i [] ∧
        (f, v) ∉ (pollRun snaps w).2)) := by
  induction snaps generalizing w with
  | nil =>
    refine ⟨fun _ => ⟨by simp [pollRun, occCount], by simpa [pollRun] using hmem⟩, ?_⟩
    intro i hi
    simp [firstHit] at hi
  | cons snap rest ih =>
    have hw : w.Nodup := hnd.of_map
    by_cases hf : f ∈ snap
    · -- the artifact exists in this snapshot: reported now, removed afterwards
      have hrep : (f, v) ∈ w.filter (fun e => snap.contains e.1) :=
        List.mem_filter.mpr ⟨hmem, by simpa using hf⟩
      have hkeep : (f, v) ∉ w.filter (fun e => !(snap.contains e.1)) := by
        intro hk
        have := (List.mem_filter.mp hk).2
        simp at this
        exact this hf
      have hcount1 :
          occCount (f, v) (w.filter (fun e => snap.contains e.1)) = 1 :=
        occCount_eq_one_of_nodup (hw.filter _) hrep
      have hcount0 :
          occCount (f, v) (pollRun rest (w.filter (fun e => !(snap.contains e.1)))).1.flatten = 0 :=
        occCount_eq_zero (fun hx => hkeep (mem_pollRun_reports hx))
      refine ⟨fun hnone => ?_, fun i hi => ?_⟩
      · simp [firstHit, hf] at hnone
      · have hi0 : i = 0 := by
          have := hi
          simp [firstHit, hf] at this
          omega
        subst hi0
        refine ⟨?_, ?_, ?_⟩
        · simp only [pollRun, pollStep, List.flatten_cons, occCount_append]
          rw [hcount1, hcount0]
        · simpa [pollRun, pollStep] using hrep
        · intro hfin
          simp only [pollRun, pollStep] at hfin
          exact hkeep (mem_pollRun_final hfin)
    · have hkeep : (f, v) ∈ w.filter (fun e => !(snap.contains e.1)) :=
        List.mem_filter.mpr ⟨hmem, by simpa using hf⟩
      have hnd' : ((w.filter (fun e => !(snap.contains e.1))).map Prod.fst).Nodup :=
        hnd.sublist ((List.filter_sublist w).map Prod.fst)
      have hrep0 : occCount (f, v) (w.filter (fun e => snap.contains e.1)) = 0 := by
        refine occCount_eq_zero (fun hx => ?_)
        have := (List.mem_filter.mp hx).2
        simp at this
        exact hf this
      have IH := ih (w.filter (fun e => !(snap.contains e.1))) hkeep hnd'
      refine ⟨fun hnone => ?_, fun i hi => ?_⟩
      · have hrest : firstHit rest f = none := by
          simpa [firstHit, hf, Option.map_eq_none'] using hnone
        have h1 := IH.1 hrest
        refine ⟨?_, ?_⟩
        · simp only [pollRun, pollStep, List.flatten_cons, occCount_append]
          rw [hrep0, h1.1]
        · simpa [pollRun, pollStep] using h1.2
      · have hrest : ∃ j, firstHit rest f = some j ∧ j + 1 = i := by
          simpa [firstHit, hf, Option.map_eq_some'] using hi
        obtain ⟨j, hj, hji⟩ := hrest
        have h2 := IH.2 j hj
        subst hji
        refine ⟨?_, ?_, ?_⟩
        · simp only [pollRun, pollStep, List.flatten_cons, occCount_append]
          rw [hrep0, h2.1]
        · simpa [pollRun, pollStep, List.getD_cons_succ] using h2.2.1
        · intro hfin
          simp only [pollRun, pollStep] at hfin
          exact h2.2.2 hfin

/-- Witness for the watcher theorem: one registered entry, whose artifact is
absent in the first snapshot and present in the second. -/
theorem watch_entry_reported_once_witness :
    (("cfut.out.w0.pickle", "7") ∈ ([("cfut.out.w0.pickle", "7")] : List (Path × String))) ∧
    ((([("cfut.out.w0.pickle", "7")] : List (Path × String)).map Prod.fst).Nodup) ∧
    ((firstHit [[], ["cfut.out.w0.pickle"]] "cfut.out.w0.pickle" = none →
       (occCount ("cfut.out.w0.pickle", "7")
          (pollRun [[], ["cfut.out.w0.pickle"]] [("cfut.out.w0.pickle", "7")]).1.flatten = 0 ∧
        ("cfut.out.w0.pickle", "7") ∈
          (pollRun [[], ["cfut.out.w0.pickle"]] [("cfut.out.w0.pickle", "7")]).2)) ∧
     (∀ i, firstHit [[], ["cfut.out.w0.pickle"]] "cfut.out.w0.pickle" = some i →
       (occCount ("cfut.out.w0.pickle", "7")
          (pollRun [[], ["cfut.out.w0.pickle"]] [("cfut.out.w0.pickle", "7")]).1.flatten = 1 ∧
        ("cfut.out.w0.pickle", "7") ∈
          (pollRun [[], ["cfut.out.w0.pickle"]] [("cfut.out.w0.pickle", "7")]).1.getD i [] ∧
        ("cfut.out.w0.pickle", "7") ∉
          (pollRun [[], ["cfut.out.w0.pickle"]] [("cfut.out.w0.pickle", "7")]).2))) :=
  ⟨by decide, by decide,
   watch_entry_reported_once [[], ["cfut.out.w0.pickle"]] [("cfut.out.w0.pickle", "7")]
     "cfut.out.w0.pickle" "7" (by decide) (by decide)⟩

/-! ### Cluster Executor state and the completion handler
(cfut/__init__.py lines 64-145) -/

/-- A Future: a single-assignment result cell with three states.  The failed
state records the payload wrapped in RemoteException by set_exception. -/
inductive FutState (R : Type) where
  | pending
  | value (r : R)
  | failed (r : R)
deriving DecidableEq

/-- Executor state: filesystem (file contents are strings of bytes), the job
table mapping JobID to WorkerID, and the futures returned to callers, keyed by
JobID.  The job table entry (fut, workerid) is split into jobs and futs. -/
structure CState (R : Type) where
  fs : FsOf String
  jobs : List (String × String)
  futs : List (String × FutState R)
deriving DecidableEq

/-- Python dict pop: the value at the key and the dict without that key;
none when the key is absent (pop raises KeyError). -/
def dictPop {K V : Type} [BEq K] (k : K) (d : List (K × V)) :
    Option (V × List (K × V)) :=
  match d.lookup k with
  | none => none
  | some v => some (v, d.filter (fun e => !(e.1 == k)))

/-- Resolve the future stored under a JobID. -/
def setFut {K R : Type} [BEq K] (k : K) (st : FutState R)
    (futs : List (K × FutState R)) : List (K × FutState R) :=
  futs.map (fun p => cond (p.1 == k) (p.1, st) p)

/-- ClusterExecutor._cleanup (cfut/__init__.py lines 87-90): the base-class
hook does nothing. -/
def baseCleanup (_jobid : String) (fs : FsOf String) : FsOf String × Option PyError :=
  (fs, none)

/-- ClusterExecutor._completion (cfut/__init__.py lines 92-114).  codec embeds
cloudpickle.loads applied to the output artifact bytes, returning none when
loads raises; cleanup is the subclass _cleanup hook.  The result is the state
reached together with the exception escaping the handler, if any: the source
has no try/except, so a raise at any step skips everything after it. -/
def clusterCompletion {R : Type} (codec : String → Option (Bool × R))
    (cleanup : String → FsOf String → FsOf String × Option PyError)
    (jobid : String) (s : CState R) : CState R × Option PyError :=
  match dictPop jobid s.jobs with
  | none => (s, some .keyError)
  | some (wid, jobs2) =>
    let s1 : CState R := { s with jobs := jobs2 }
    match readFile (pyFormat OUTFILE_FMT wid) s1.fs with
    | none => (s1, some .fileNotFound)
    | some outdata =>
      match codec outdata with
      | none => (s1, some .decodeError)
      | some (success, result) =>
        let newFut := if success then FutState.value result else FutState.failed result
        let s2 : CState R := { s1 with futs := setFut jobid newFut s1.futs }
        match fsUnlink (pyFormat INFILE_FMT wid) s2.fs with
        | .error e => (s2, some e)
        | .ok fsA =>
          match fsUnlink (pyFormat OUTFILE_FMT wid) fsA with
          | .error e => ({ s2 with fs := fsA }, some e)
          | .ok fsB =>
            let c := cleanup jobid fsB
            ({ s2 with fs := c.1 }, c.2)

/-! ### Backend cleanup hooks (C7) -/

/-- Modelled from the spec: the slurm adapter module (cfut/slurm.py, not under
src/) names its backend stdout capture artifact by JobID. -/
def slurmCaptureName (jobid : String) : Path :=
  "slurmpy.stdout." ++ jobid ++ ".log"

/-- SlurmExecutor._cleanup (cfut/__init__.py lines 157-165): returns early when
keep_logs is set, otherwise unlinks the capture file inside try/except OSError:
pass. -/
def slurmCleanup (keepLogs : Bool) (jobid : String) (fs : FsOf String) :
    FsOf String × Option PyError :=
  if keepLogs then (fs, none)
  else
    match fsUnlink (slurmCaptureName jobid) fs with
    | .ok fs2 => (fs2, none)
    | .error _ => (fs, none)

/-- Modelled from the spec: the condor adapter module (cfut/condor.py, not
under src/) names its stdout capture artifact by JobID. -/
def condorStdoutName (jobid : String) : Path :=
  "condorpy.stdout." ++ jobid ++ ".log"

/-- Modelled from the spec: the condor adapter module (cfut/condor.py, not
under src/) names its stderr capture artifact by JobID. -/
def condorStderrName (jobid : String) : Path :=
  "condorpy.stderr." ++ jobid ++ ".log"

/-- CondorExecutor._cleanup (cfut/__init__.py lines 227-229): unlinks both
capture files with no exception handling at all. -/
def condorCleanup (jobid : String) (fs : FsOf String) :
    FsOf String × Option PyError :=
  match fsUnlink (condorStdoutName jobid) fs with
  | .error e => (fs, some e)
  | .ok fs1 =>
    match fsUnlink (condorStderrName jobid) fs1 with
    | .error e => (fs1, some e)
    | .ok fs2 => (fs2, none)

/-! ### Association-list helper lemmas -/

theorem lookup_filterNe_self {K V : Type} [BEq K] [LawfulBEq K] (k : K)
    (d : List (K × V)) :
    (d.filter (fun e => !(e.1 == k))).lookup k = none := by
  induction d with
  | nil => rfl
  | cons e d ih =>
    obtain ⟨a, b⟩ := e
    by_cases h : a = k
    · subst h
      simpa [List.filter_cons] using ih
    · have hne : (a == k) = false := by simp [h]
      have hne' : (k == a) = false := by
        simp only [beq_eq_false_iff_ne]
        exact fun hk => h hk.symm
      simp [List.filter_cons, hne, List.lookup, hne', ih]

theorem lookup_filterNe_ne {K V : Type} [BEq K] [LawfulBEq K] {k k' : K}
    (h : k' ≠ k) (d : List (K × V)) :
    (d.filter (fun e => !(e.1 == k))).lookup k' = d.lookup k' := by
  induction d with
  | nil => rfl
  | cons e d ih =>
    obtain ⟨a, b⟩ := e
    by_cases he : a = k
    · subst he
      have hk' : (k' == a) = false := by simp [h]
      simp [List.filter_cons, List.lookup, hk', ih]
    · have hne : (a == k) = false := by simp [he]
      by_cases hk : k' = a
      · subst hk
        simp [List.filter_cons, hne, List.lookup]
      · have hk' : (k' == a) = false := by simp [hk]
        simp [List.filter_cons, hne, List.lookup, hk', ih]

theorem lookup_setFut_self {K R : Type} [BEq K] [LawfulBEq K] (k : K)
    (st : FutState R) (futs : List (K × FutState R))
    (h : (futs.lookup k).isSome = true) :
    (setFut k st futs).lookup k = some st := by
  induction futs with
  | nil => simp [List.lookup] at h
  | cons e fs ih =>
    obtain ⟨a, b⟩ := e
    by_cases he : a = k
    · subst he
      simp [setFut, List.lookup]
    · have hne : (a == k) = false := by simp [he]
      have hne' : (k == a) = false := by
        simp only [beq_eq_false_iff_ne]
        exact fun hk => he hk.symm
      simp only [List.lookup, hne'] at h
      simpa [setFut, hne, List.lookup, hne'] using ih h

/-! ### C3: the completion handler and decode failure -/

/-- A codec (cloudpickle.loads) that raises on the concrete byte string
"garbage" and decodes everything else as a successful zero result. -/
def fragileCodec : String → Option (Bool × Nat) :=
  fun sdata => if sdata = "garbage" then none else some (true, 0)

/-- One in-flight job whose two communication artifacts are both on disk; the
output artifact holds undecodable bytes. -/
def decodeFailState : CState Nat :=
  { fs := [(pyFormat INFILE_FMT "w0", "indata"), (pyFormat OUTFILE_FMT "w0", "garbage")],
    jobs := [("1", "w0")],
    futs := [("1", FutState.pending)] }

/-- C3 counterexample: when cloudpickle.loads raises on the output artifact,
ClusterExecutor._completion propagates the exception, deletes neither the
input nor the output artifact, and leaves the future pending -- the claim that
artifacts are deleted unconditionally and that decode failure resolves the
future with an error is false at this input. -/
theorem completion_decode_failure_keeps_artifacts :
    (clusterCompletion fragileCodec baseCleanup "1" decodeFailState).2 =
      some PyError.decodeError ∧
    readFile (pyFormat INFILE_FMT "w0")
      (clusterCompletion fragileCodec baseCleanup "1" decodeFailState).1.fs = some "indata" ∧
    readFile (pyFormat OUTFILE_FMT "w0")
      (clusterCompletion fragileCodec baseCleanup "1" decodeFailState).1.fs = some "garbage" ∧
    (clusterCompletion fragileCodec baseCleanup "1" decodeFailState).1.futs.lookup "1" =
      some FutState.pending := by
  decide

/-- C3 (amended): the completion handler deletes the input and output
artifacts and resolves the future exactly when decoding the output artifact
succeeds (for both success and remote-failure payloads); when decoding fails,
the exception escapes the handler, both artifacts stay on disk, and the future
stays as it was (pending).  The job-table entry is removed in either case.
Stated against the base class, whose _cleanup hook is a no-op. -/
theorem completion_deletes_iff_decode_succeeds {R : Type}
    (codec : String → Option (Bool × R)) (jobid wid outdata : String) (s : CState R)
    (hjob : s.jobs.lookup jobid = some wid)
    (hout : readFile (pyFormat OUTFILE_FMT wid) s.fs = some outdata)
    (hin : (s.fs.lookup (pyFormat INFILE_FMT wid)).isSome = true)
    (hfut : (s.futs.lookup jobid).isSome = true) :
    (∀ success result, codec outdata = some (success, result) →
       (clusterCompletion codec baseCleanup jobid s).2 = none ∧
       (clusterCompletion codec baseCleanup jobid s).1.fs.lookup
         (pyFormat INFILE_FMT wid) = none ∧
       (clusterCompletion codec baseCleanup jobid s).1.fs.lookup
         (pyFormat OUTFILE_FMT wid) = none ∧
       (clusterCompletion codec baseCleanup jobid s).1.futs.lookup jobid =
         some (if success then FutState.value result else FutState.failed result) ∧
       (clusterCompletion codec baseCleanup jobid s).1.jobs.lookup jobid = none) ∧
    (codec outdata = none →
       (clusterCompletion codec baseCleanup jobid s).2 = some PyError.decodeError ∧
       (clusterCompletion codec baseCleanup jobid s).1.fs = s.fs ∧
       (clusterCompletion codec baseCleanup jobid s).1.futs = s.futs ∧
       (clusterCompletion codec baseCleanup jobid s).1.jobs.lookup jobid = none) := by
  have hpop : dictPop jobid s.jobs =
      some (wid, s.jobs.filter (fun e => !(e.1 == jobid))) := by
    simp [dictPop, hjob]
  have hout' : s.fs.lookup (pyFormat OUTFILE_FMT wid) = some outdata := hout
  have houtA :
      (s.fs.filter (fun e => !(e.1 == pyFormat INFILE_FMT wid))).lookup
        (pyFormat OUTFILE_FMT wid) = some outdata :=
    (lookup_filterNe_ne (infile_ne_outfile wid).symm s.fs).trans hout
  constructor
  · intro success result hcodec
    have hu1 : fsUnlink (pyFormat INFILE_FMT wid) s.fs =
        .ok (s.fs.filter (fun e => !(e.1 == pyFormat INFILE_FMT wid))) := by
      simp [fsUnlink, hin]
    have hu2 : fsUnlink (pyFormat OUTFILE_FMT wid)
        (s.fs.filter (fun e => !(e.1 == pyFormat INFILE_FMT wid))) =
        .ok ((s.fs.filter (fun e => !(e.1 == pyFormat INFILE_FMT wid))).filter
          (fun e => !(e.1 == pyFormat OUTFILE_FMT wid))) := by
      simp [fsUnlink, houtA]
    have hcc : clusterCompletion codec baseCleanup jobid s =
        ({ fs := (s.fs.filter (fun e => !(e.1 == pyFormat INFILE_FMT wid))).filter
              (fun e => !(e.1 == pyFormat OUTFILE_FMT wid)),
           jobs := s.jobs.filter (fun e => !(e.1 == jobid)),
           futs := setFut jobid
              (if success then FutState.value result else FutState.failed result) s.futs },
         none) := by
      simp only [clusterCompletion, readFile, hpop, hout', hcodec, hu1, hu2, baseCleanup]
    rw [hcc]
    refine ⟨rfl, ?_, ?_, ?_, ?_⟩
    · exact (lookup_filterNe_ne (infile_ne_outfile wid) _).trans
        (lookup_filterNe_self _ _)
    · exact lookup_filterNe_self _ _
    · exact lookup_setFut_self _ _ _ hfut
    · exact lookup_filterNe_self _ _
  · intro hcodec
    have hcc : clusterCompletion codec baseCleanup jobid s =
        ({ fs := s.fs, jobs := s.jobs.filter (fun e => !(e.1 == jobid)), futs := s.futs },
         some PyError.decodeError) := by
      simp only [clusterCompletion, readFile, hpop, hout', hcodec]
    rw [hcc]
    exact ⟨rfl, rfl, rfl, lookup_filterNe_self _ _⟩

/-! ### C7: cleanup hook tolerance -/

/-- C7 counterexample: CondorExecutor._cleanup does not tolerate already-gone
capture files.  The first invocation for a finished job succeeds; invoking it
a second time (double invocation) finds the capture files already missing and
the OSError propagates instead of being swallowed. -/
theorem condor_cleanup_double_invocation_raises :
    (condorCleanup "3" [(condorStdoutName "3", ""), (condorStderrName "3", "")]).2 = none ∧
    (condorCleanup "3" ((condorCleanup "3"
      [(condorStdoutName "3", ""), (condorStderrName "3", "")]).1)).2 =
      some PyError.osError := by
  decide

/-- C7 (amended): SlurmExecutor's cleanup hook tolerates double invocation and
already-missing capture files -- no invocation ever lets an error escape, and
an immediately repeated invocation is equally silent; CondorExecutor's cleanup
hook does not: when the stdout capture file is already gone, the OSError from
os.unlink propagates (the completion handler has no handler for it). -/
theorem cleanup_tolerance (keep : Bool) (jobid : String) (fs : FsOf String) :
    (slurmCleanup keep jobid fs).2 = none ∧
    (slurmCleanup keep jobid (slurmCleanup keep jobid fs).1).2 = none ∧
    ((fs.lookup (condorStdoutName jobid)).isSome = false →
      (condorCleanup jobid fs).2 = some PyError.osError) := by
  have hs : ∀ g : FsOf String, (slurmCleanup keep jobid g).2 = none := by
    intro g
    cases keep with
    | true => rfl
    | false =>
      cases hu : fsUnlink (slurmCaptureName jobid) g with
      | error e => simp [slurmCleanup, hu]
      | ok fs2 => simp [slurmCleanup, hu]
  refine ⟨hs fs, hs _, ?_⟩
  intro hmiss
  have hu : fsUnlink (condorStdoutName jobid) fs = .error .osError := by
    simp [fsUnlink, hmiss]
  simp [condorCleanup, hu]

/-- Witness for the cleanup tolerance theorem on an empty filesystem. -/
theorem cleanup_tolerance_witness :
    (slurmCleanup false "3" []).2 = none ∧
    (condorCleanup "3" []).2 = some PyError.osError :=
  ⟨(cleanup_tolerance false "3" []).1, (cleanup_tolerance false "3" []).2.2 (by decide)⟩

/-- One in-flight job whose output artifact decodes successfully. -/
def decodeOkState : CState Nat :=
  { fs := [(pyFormat INFILE_FMT "w0", "indata"), (pyFormat OUTFILE_FMT "w0", "okdata")],
    jobs := [("1", "w0")],
    futs := [("1", FutState.pending)] }

/-- Witness for the amended completion theorem at a concrete state. -/
theorem completion_deletes_iff_decode_succeeds_witness :
    (decodeOkState.jobs.lookup "1" = some "w0") ∧
    (readFile (pyFormat OUTFILE_FMT "w0") decodeOkState.fs = some "okdata") ∧
    ((decodeOkState.fs.lookup (pyFormat INFILE_FMT "w0")).isSome = true) ∧
    ((decodeOkState.futs.lookup "1").isSome = true) ∧
    ((∀ success result, fragileCodec "okdata" = some (success, result) →
       (clusterCompletion fragileCodec baseCleanup "1" decodeOkState).2 = none ∧
       (clusterCompletion fragileCodec baseCleanup "1" decodeOkState).1.fs.lookup
         (pyFormat INFILE_FMT "w0") = none ∧
       (clusterCompletion fragileCodec baseCleanup "1" decodeOkState).1.fs.lookup
         (pyFormat OUTFILE_FMT "w0") = none ∧
       (clusterCompletion fragileCodec baseCleanup "1" decodeOkState).1.futs.lookup "1" =
         some (if success then FutState.value result else FutState.failed result) ∧
       (clusterCompletion fragileCodec baseCleanup "1" decodeOkState).1.jobs.lookup "1" =
         none) ∧
     (fragileCodec "okdata" = none →
       (clusterCompletion fragileCodec baseCleanup "1" decodeOkState).2 =
         some PyError.decodeError ∧
       (clusterCompletion fragileCodec baseCleanup "1" decodeOkState).1.fs =
         decodeOkState.fs ∧
       (clusterCompletion fragileCodec baseCleanup "1" decodeOkState).1.futs =
         decodeOkState.futs ∧
       (clusterCompletion fragileCodec baseCleanup "1" decodeOkState).1.jobs.lookup "1" =
         none)) :=
  ⟨by decide, by decide, by decide, by decide,
   completion_deletes_iff_decode_succeeds fragileCodec "1" "w0" "okdata" decodeOkState
     (by decide) (by decide) (by decide) (by decide)⟩

/-! ### C10: artifact naming -/

/-- C10 counterexample: the source's artifact name templates end in .pickle,
not .blob -- at WorkerID w0 the input artifact is cfut.in.w0.pickle, which is
not the claimed cfut.in.w0.blob (and likewise for the output artifact). -/
theorem artifact_names_not_blob :
    pyFormat INFILE_FMT "w0" = "cfut.in.w0.pickle" ∧
    pyFormat INFILE_FMT "w0" ≠ "cfut.in.w0.blob" ∧
    pyFormat OUTFILE_FMT "w0" = "cfut.out.w0.pickle" ∧
    pyFormat OUTFILE_FMT "w0" ≠ "cfut.out.w0.blob" := by
  decide

/-- C10 (amended): for every WorkerID w, the input artifact is named
cfut.in.w.pickle, the output artifact cfut.out.w.pickle, and the executor log
artifact (Condor-style backend) cfut.log.r.txt for the random token r. -/
theorem artifact_names (w r : String) :
    pyFormat INFILE_FMT w = "cfut.in." ++ w ++ ".pickle" ∧
    pyFormat OUTFILE_FMT w = "cfut.out." ++ w ++ ".pickle" ∧
    pyFormat LOGFILE_FMT r = "cfut.log." ++ r ++ ".txt" :=
  ⟨infile_name_eq w, outfile_name_eq w, logfile_name_eq r⟩

/-! ### C2: shutdown semantics

ClusterExecutor.shutdown (cfut/__init__.py lines 137-145) blocks on the
jobs-empty condition when wait is set and then stops and joins the watcher
thread.  The legacy CondorExecutor.shutdown (src/cfut.py lines 73-78) instead
ignores the wait flag entirely (line 75 is a literal TODO comment for it),
stops the watcher without joining, and removes the executor logfile. -/

/-- Executor state for the shutdown models: job table (JobID of type K to
WorkerID), the futures keyed by JobID, a filesystem, and the watcher flag. -/
structure ShutState (K R : Type) where
  jobs : List (K × String)
  futs : List (K × FutState R)
  fs : FsOf String
  watcherStopped : Bool
deriving DecidableEq

/-- Events applied to an executor: submit (caller threads, lines 116-135) and
completion of a job (the watcher thread invoking _completion); completion here
abstracts the decoded outcome of the finished job. -/
inductive ExecEvent (K R : Type) where
  | submit (jobid : K) (wid : String)
  | complete (jobid : K) (success : Bool) (result : R)

/-- One event: submit inserts the job-table entry and a pending future;
complete pops the entry and resolves the future with the decoded outcome, as
ClusterExecutor._completion does. -/
def execStep {K R : Type} [BEq K] (s : ShutState K R) : ExecEvent K R → ShutState K R
  | .submit jobid wid =>
      { s with jobs := s.jobs ++ [(jobid, wid)],
               futs := s.futs ++ [(jobid, FutState.pending)] }
  | .complete jobid success result =>
      { s with jobs := s.jobs.filter (fun e => !(e.1 == jobid)),
               futs := setFut jobid
                 (if success then FutState.value result else FutState.failed result) s.futs }

/-- A run of the executor from its freshly constructed state. -/
def execRun {K R : Type} [BEq K] (evs : List (ExecEvent K R)) : ShutState K R :=
  evs.foldl execStep { jobs := [], futs := [], fs := [], watcherStopped := false }

/-- ClusterExecutor.shutdown (cfut/__init__.py lines 137-145): with wait set
the caller blocks on the empty condition until the job table is empty -- the
model returns none while the call would still be blocked -- then stops and
joins the watcher. -/
def mainShutdown {K R : Type} (wait : Bool) (s : ShutState K R) :
    Option (ShutState K R) :=
  if wait && !s.jobs.isEmpty then none
  else some { s with watcherStopped := true }

/-- Legacy CondorExecutor.shutdown (src/cfut.py lines 73-78): the wait flag is
ignored (TODO in the source), the watcher is stopped (not joined), and the
executor logfile is removed if it exists.  The job table and the futures are
untouched. -/
def legacyShutdown {K R : Type} (logfile : Path) (_wait : Bool) (s : ShutState K R) :
    ShutState K R :=
  let s1 := { s with watcherStopped := true }
  if (s1.fs.lookup logfile).isSome then
    { s1 with fs := s1.fs.filter (fun e => !(e.1 == logfile)) }
  else s1

/-- C2: evaluation of the code at the failing input.  The legacy
CondorExecutor.shutdown called with wait=true on an executor still holding one
uncompleted job returns at once: the job table still holds the job and its
future is still pending (only the watcher flag and the logfile change), so
shutdown(wait=true) neither blocks until the job table is empty nor leaves
every submitted future resolved. -/
theorem legacy_shutdown_ignores_wait :
    (legacyShutdown "cfut.log.r0.txt" true
        { jobs := [(7, "w0")], futs := [(7, FutState.pending)],
          fs := [("cfut.log.r0.txt", "log")], watcherStopped := false } :
      ShutState Nat Nat).jobs = [(7, "w0")] ∧
    (legacyShutdown "cfut.log.r0.txt" true
        { jobs := [(7, "w0")], futs := [(7, FutState.pending)],
          fs := [("cfut.log.r0.txt", "log")], watcherStopped := false } :
      ShutState Nat Nat).futs.lookup 7 = some FutState.pending ∧
    (legacyShutdown "cfut.log.r0.txt" true
        { jobs := [(7, "w0")], futs := [(7, FutState.pending)],
          fs := [("cfut.log.r0.txt", "log")], watcherStopped := false } :
      ShutState Nat Nat).watcherStopped = true := by
  decide

theorem pending_mem_jobs_step {K R : Type} [BEq K] [LawfulBEq K]
    (s : ShutState K R) (e : ExecEvent K R)
    (hinv : ∀ p ∈ s.futs, p.2 = FutState.pending → p.1 ∈ s.jobs.map Prod.fst) :
    ∀ p ∈ (execStep s e).futs, p.2 = FutState.pending →
      p.1 ∈ (execStep s e).jobs.map Prod.fst := by
  cases e with
  | submit jobid wid =>
    intro p hp hpend
    simp only [execStep, List.map_append, List.mem_append] at hp ⊢
    rcases hp with hp | hp
    · exact Or.inl (hinv p hp hpend)
    · simp at hp
      subst hp
      simp
  | complete jobid success result =>
    intro p hp hpend
    simp only [execStep, setFut, List.mem_map] at hp
    obtain ⟨q, hq, hquq⟩ := hp
    by_cases hqk : (q.1 == jobid) = true
    · rw [hqk] at hquq
      simp only [cond_true] at hquq
      rw [← hquq] at hpend
      simp at hpend
      cases success <;> simp at hpend
    · have hqk' : (q.1 == jobid) = false := by
        simpa using hqk
      rw [hqk'] at hquq
      simp only [cond_false] at hquq
      subst hquq
      have hmem := hinv q hq hpend
      simp only [execStep, List.mem_map] at hmem ⊢
      obtain ⟨entry, hentry, hfst⟩ := hmem
      refine ⟨entry, List.mem_filter.mpr ⟨hentry, ?_⟩, hfst⟩
      rw [hfst]
      simp [hqk']

theorem pending_mem_jobs_run {K R : Type} [BEq K] [LawfulBEq K]
    (evs : List (ExecEvent K R)) (s : ShutState K R)
    (hinv : ∀ p ∈ s.futs, p.2 = FutState.pending → p.1 ∈ s.jobs.map Prod.fst) :
    ∀ p ∈ (evs.foldl execStep s).futs, p.2 = FutState.pending →
      p.1 ∈ (evs.foldl execStep s).jobs.map Prod.fst := by
  induction evs generalizing s with
  | nil => simpa using hinv
  | cons e evs ih =>
    simpa [List.foldl_cons] using ih (execStep s e) (pending_mem_jobs_step s e hinv)

/-- ClusterExecutor.shutdown with wait=true, by contrast, returns only once
the job table is empty, and then the watcher is stopped and every future ever
created by a submit event is resolved (a job leaves the table only through
_completion, which resolves its future). -/
theorem main_shutdown_wait_resolves {K R : Type} [BEq K] [LawfulBEq K]
    (evs : List (ExecEvent K R)) (s2 : ShutState K R)
    (h : mainShutdown true (execRun evs) = some s2) :
    s2.jobs = [] ∧ s2.watcherStopped = true ∧ ∀ p ∈ s2.futs, p.2 ≠ FutState.pending := by
  have hempty : (execRun evs).jobs.isEmpty = true := by
    by_contra hne
    simp only [mainShutdown, Bool.not_eq_true] at h
    rw [Bool.not_eq_true] at hne
    simp [hne] at h
  have hjobs : (execRun evs).jobs = [] := List.isEmpty_iff.mp hempty
  have hs2 : { execRun evs with watcherStopped := true } = s2 := by
    simpa [mainShutdown, hempty] using h
  have hs2jobs : s2.jobs = (execRun evs).jobs := by rw [← hs2]
  have hs2futs : s2.futs = (execRun evs).futs := by rw [← hs2]
  have hs2w : s2.watcherStopped = true := by rw [← hs2]
  refine ⟨hs2jobs.trans hjobs, hs2w, ?_⟩
  intro p hp hpend
  rw [hs2futs] at hp
  have hinv0 : ∀ q ∈ ({ jobs := [], futs := [], fs := [], watcherStopped := false } :
      ShutState K R).futs, q.2 = FutState.pending →
      q.1 ∈ (({ jobs := [], futs := [], fs := [], watcherStopped := false } :
        ShutState K R)).jobs.map Prod.fst := by
    intro q hq
    simp at hq
  have hmem : p.1 ∈ (execRun evs).jobs.map Prod.fst :=
    pending_mem_jobs_run evs _ hinv0 p hp hpend
  rw [hjobs] at hmem
  simp at hmem

/-! ### C4: the remote-failure path of the legacy executor (src/cfut.py)

The worker entry point _worker (lines 80-95) runs the deserialized callable in
a try block catching BaseException and writes the outcome tuple to the output
artifact: (True, result) on success, (False, str(exc)) on a raise.  In this
model the filesystem stores decoded outcome tuples directly: the codec is
opaque and self-describing, so the serialize/deserialize round-trip is the
identity. -/

/-- A worker result payload: a value, or the stringified exception. -/
inductive RVal (R : Type) where
  | val (r : R)
  | errStr (msg : String)
deriving DecidableEq

/-- The outcome tuple a worker writes, from the evaluation of
fun(*args, **kwargs): ok v gives (True, v), a raise gives (False, str(exc)). -/
def workerOutcome {R : Type} (call : Except String R) : Bool × RVal R :=
  match call with
  | .ok v => (true, RVal.val v)
  | .error msg => (false, RVal.errStr msg)

/-- _worker (src/cfut.py lines 80-95): writes the outcome tuple to the output
artifact of its WorkerID. -/
def legacyWorker {R : Type} (workerid : String) (call : Except String R)
    (fs : FsOf (Bool × RVal R)) : FsOf (Bool × RVal R) :=
  fsWrite (pyFormat OUTFILE_FMT workerid) (workerOutcome call) fs

/-- Python class RemoteException(object) with an empty body (src/cfut.py lines
17-18): it overrides neither the initializer nor the allocator, so a
construction with an argument -- RemoteException(result) at line 43 -- raises
TypeError (object takes no parameters); only a zero-argument construction
would succeed. -/
def mkLegacyRemoteException {R : Type} (arg : Option (RVal R)) : Except PyError Unit :=
  match arg with
  | none => .ok ()
  | some _ => .error .typeError

/-- State of the legacy CondorExecutor: job table keyed by integer JobID. -/
structure LegacyState (R : Type) where
  fs : FsOf (Bool × RVal R)
  jobs : List (Nat × String)
  futs : List (Nat × FutState (RVal R))
deriving DecidableEq

/-- The artifact removals at the end of the legacy completion handler
(src/cfut.py lines 45-50): communication files, then the condor capture files
(the condor module is not under src/; its capture names are modelled from the
spec, as above). -/
def legacyUnlinkAll {R : Type} (wid : String) (jobid : Nat)
    (fs : FsOf (Bool × RVal R)) : FsOf (Bool × RVal R) × Option PyError :=
  match fsUnlink (pyFormat INFILE_FMT wid) fs with
  | .error e => (fs, some e)
  | .ok fsA =>
    match fsUnlink (pyFormat OUTFILE_FMT wid) fsA with
    | .error e => (fsA, some e)
    | .ok fsB =>
      match fsUnlink (condorStdoutName (toString jobid)) fsB with
      | .error e => (fsB, some e)
      | .ok fsC =>
        match fsUnlink (condorStderrName (toString jobid)) fsC with
        | .error e => (fsC, some e)
        | .ok fsD => (fsD, none)

/-- CondorExecutor._completion in the legacy file (src/cfut.py lines 30-50):
pops the job record, reads and deserializes the output artifact; on success it
resolves the future with the result, on a remote failure it first evaluates
RemoteException(result) to build the argument of set_exception; afterwards it
unlinks the artifacts.  The second component is the exception escaping the
handler, if any. -/
def legacyCompletion {R : Type} (jobid : Nat) (s : LegacyState R) :
    LegacyState R × Option PyError :=
  match dictPop jobid s.jobs with
  | none => (s, some .keyError)
  | some (wid, jobs2) =>
    let s1 : LegacyState R := { s with jobs := jobs2 }
    match readFile (pyFormat OUTFILE_FMT wid) s1.fs with
    | none => (s1, some .fileNotFound)
    | some (success, result) =>
      if success then
        let s2 := { s1 with futs := setFut jobid (FutState.value result) s1.futs }
        let u := legacyUnlinkAll wid jobid s2.fs
        ({ s2 with fs := u.1 }, u.2)
      else
        match mkLegacyRemoteException (some result) with
        | .error e => (s1, some e)
        | .ok _ =>
          let s2 := { s1 with futs := setFut jobid (FutState.failed result) s1.futs }
          let u := legacyUnlinkAll wid jobid s2.fs
          ({ s2 with fs := u.1 }, u.2)

/-- Input artifact on disk before the worker runs; the stored tuple stands for
the serialized call, its value is irrelevant to the completion path. -/
def legacyC4Fs0 : FsOf (Bool × RVal Nat) :=
  [(pyFormat INFILE_FMT "w0", (true, RVal.val 0))]

/-- Executor state after the worker for job 7 raised the exception boom. -/
def legacyC4State : LegacyState Nat :=
  { fs := legacyWorker "w0" (Except.error "boom") legacyC4Fs0,
    jobs := [(7, "w0")],
    futs := [(7, FutState.pending)] }

/-- C4: evaluation of the code at the failing input.  A worker whose user
callable raises writes (False, "boom") to the output artifact, as claimed; but
when the legacy completion handler processes that job, constructing
RemoteException(result) raises TypeError: the handler crashes, the future is
never resolved, and the artifacts are not removed -- instead of the claimed
resolved-with-error future. -/
theorem legacy_remote_failure_crashes_completion :
    (readFile (pyFormat OUTFILE_FMT "w0")
       (legacyWorker "w0" (Except.error "boom") legacyC4Fs0) =
      some (false, RVal.errStr "boom")) ∧
    (legacyCompletion 7 legacyC4State).2 = some PyError.typeError ∧
    (legacyCompletion 7 legacyC4State).1.futs.lookup 7 = some FutState.pending ∧
    (readFile (pyFormat INFILE_FMT "w0")
       (legacyCompletion 7 legacyC4State).1.fs).isSome = true ∧
    (readFile (pyFormat OUTFILE_FMT "w0")
       (legacyCompletion 7 legacyC4State).1.fs).isSome = true := by
  decide

/-! ### Array Batcher: SlurmExecutor.submit_array (cfut/__init__.py lines
167-215) -/

/-- Errors raised by submit_array before any side effect: the two
NotImplementedError checks at lines 173 and 178, and the ZeroDivisionError
that Python raises at line 177 when batch_size is 0. -/
inductive ConfigError where
  | kwargLenMismatch
  | notDivisible
  | zeroDivision
deriving DecidableEq

/-- Observable side effects of submit_array, in program order: input-artifact
writes (lines 186-188), the single array submission to the scheduler (line
201), and the per-slot watch registrations and job-table insertions (lines
208-213). -/
inductive ArrayEff (A K : Type) where
  | writeInfile (p : Path) (batchArgs : List A) (batchKwargs : List K)
  | sbatchArraySubmit (directives : List String)
  | registerWatch (p : Path) (jobid : String)
  | tableInsert (jobid : String) (wid : String)
deriving DecidableEq

instance {E X : Type} [DecidableEq E] [DecidableEq X] : DecidableEq (Except E X) :=
  fun x y =>
    match x, y with
    | .error e, .error f =>
      if h : e = f then .isTrue (h ▸ rfl) else .isFalse (fun hx => h (Except.error.inj hx))
    | .error _, .ok _ => .isFalse (fun hx => Except.noConfusion hx)
    | .ok _, .error _ => .isFalse (fun hx => Except.noConfusion hx)
    | .ok a, .ok b =>
      if h : a = b then .isTrue (h ▸ rfl) else .isFalse (fun hx => h (Except.ok.inj hx))

/-- Everything observable about one submit_array call: its effects, the final
contents of the caller's additional_setup_lines list (mutated in place by the
append at line 200), and the returned futures, identified by their per-slot
JobIDs in return order. -/
structure ArrayOut (A K : Type) where
  effects : List (ArrayEff A K)
  setupLinesAfter : List String
  result : Except ConfigError (List String)
deriving DecidableEq

/-- Python slice xs[l:r]. -/
def pySlice {α : Type} (l r : Nat) (xs : List α) : List α :=
  (xs.drop l).take (r - l)

/-- The array-size directive appended at line 200. -/
def sbatchArrayLine (numJobs : Nat) : String :=
  "#SBATCH --array=0-" ++ toString (numJobs - 1)

/-- SlurmExecutor.submit_array (cfut/__init__.py lines 167-215).  kwargs
defaulting and validation (lines 170-173) come first, then the divisibility
check (line 177), then the batch loop writing one input artifact per batch,
the in-place append of the array directive, the single scheduler submission,
and the per-slot registrations.  The group JobID returned by the scheduler is
an integer. -/
def submit_array {A K : Type} (args : List A) (additional_setup_lines : List String)
    (kwargs : List K) (emptyKw : K) (batch_size : Nat)
    (workerid_base : String) (groupJobid : Nat) : ArrayOut A K :=
  let checked : Except ConfigError (List K) :=
    if kwargs.length = 0 then .ok (args.map (fun _ => emptyKw))
    else if kwargs.length ≠ args.length then .error .kwargLenMismatch
    else .ok kwargs
  match checked with
  | .error e =>
      { effects := [], setupLinesAfter := additional_setup_lines, result := .error e }
  | .ok kw =>
    if batch_size = 0 then
      { effects := [], setupLinesAfter := additional_setup_lines,
        result := .error .zeroDivision }
    else if args.length % batch_size ≠ 0 then
      { effects := [], setupLinesAfter := additional_setup_lines,
        result := .error .notDivisible }
    else
      let num_jobs := args.length / batch_size
      let workerids := (List.range num_jobs).map (fun i => workerid_base ++ "_" ++ toString i)
      let writes := (List.range num_jobs).map (fun i =>
        ArrayEff.writeInfile (pyFormat INFILE_FMT (workerid_base ++ "_" ++ toString i))
          (pySlice (batch_size * i) (batch_size * (i + 1)) args)
          (pySlice (batch_size * i) (batch_size * (i + 1)) kw))
      let lines2 := additional_setup_lines ++ [sbatchArrayLine num_jobs]
      let jobids := (List.range num_jobs).map (fun i => toString groupJobid ++ "_" ++ toString i)
      let regs := ((workerids.zip jobids).map (fun p =>
        [ArrayEff.registerWatch (pyFormat OUTFILE_FMT p.1) p.2,
         ArrayEff.tableInsert p.2 p.1])).flatten
      { effects := writes ++ ArrayEff.sbatchArraySubmit lines2 :: regs,
        setupLinesAfter := lines2,
        result := .ok jobids }

theorem pySlice_length {A : Type} (args : List A) (b k i : Nat)
    (hlen : args.length = b * k) (hi : i < k) :
    (pySlice (b * i) (b * (i + 1)) args).length = b := by
  have hmul : b * i + b ≤ b * k := by
    have h := Nat.mul_le_mul_left b (Nat.succ_le_of_lt hi)
    rwa [Nat.mul_succ] at h
  unfold pySlice
  rw [List.length_take, List.length_drop, hlen, Nat.mul_succ]
  omega

theorem pySlice_get? {A : Type} (args : List A) (b i j : Nat) (hj : j < b) :
    (pySlice (b * i) (b * (i + 1)) args).get? j = args.get? (b * i + j) := by
  unfold pySlice
  rw [List.get?_take (by rw [Nat.mul_succ]; omega), List.get?_drop]

/-- C5: for an argument sequence whose length is a positive multiple of the
batch size, submit_array returns exactly len(args)/batchSize futures ordered
by batch index with per-slot JobIDs group_i, and writes one input artifact per
batch under WorkerID base_i whose batch i holds exactly the batchSize
contiguous items starting at batchSize*i (and the matching kwargs slice). -/
theorem submit_array_partitions {A K : Type} (args : List A) (addl : List String)
    (emptyKw : K) (b k : Nat) (base : String) (gjid : Nat)
    (hb : 0 < b) (hk : 0 < k) (hlen : args.length = b * k) :
    (submit_array args addl [] emptyKw b base gjid).result =
      .ok ((List.range k).map (fun i => toString gjid ++ "_" ++ toString i)) ∧
    ((List.range k).map (fun i => toString gjid ++ "_" ++ toString i)).length = k ∧
    (∀ i, i < k →
      ((List.range k).map (fun i => toString gjid ++ "_" ++ toString i)).get? i =
        some (toString gjid ++ "_" ++ toString i)) ∧
    (∀ i, i < k →
      (submit_array args addl [] emptyKw b base gjid).effects.get? i =
        some (ArrayEff.writeInfile (pyFormat INFILE_FMT (base ++ "_" ++ toString i))
          (pySlice (b * i) (b * (i + 1)) args)
          (pySlice (b * i) (b * (i + 1)) (args.map (fun _ => emptyKw)))) ∧
      (pySlice (b * i) (b * (i + 1)) args).length = b ∧
      (∀ j, j < b → (pySlice (b * i) (b * (i + 1)) args).get? j = args.get? (b * i + j)) ∧
      (∀ j, j < b →
        (pySlice (b * i) (b * (i + 1)) (args.map (fun _ => emptyKw))).get? j =
          (args.map (fun _ => emptyKw)).get? (b * i + j))) := by
  have hb0 : ¬(b = 0) := Nat.pos_iff_ne_zero.mp hb
  have hmod : args.length % b = 0 := by rw [hlen]; exact Nat.mul_mod_right b k
  have hdiv : args.length / b = k := by rw [hlen]; exact Nat.mul_div_cancel_left k hb
  have heff : (submit_array args addl [] emptyKw b base gjid).effects =
      ((List.range k).map (fun i =>
        ArrayEff.writeInfile (pyFormat INFILE_FMT (base ++ "_" ++ toString i))
          (pySlice (b * i) (b * (i + 1)) args)
          (pySlice (b * i) (b * (i + 1)) (args.map (fun _ => emptyKw))))) ++
      ArrayEff.sbatchArraySubmit (addl ++ [sbatchArrayLine k]) ::
        ((((List.range k).map (fun i => base ++ "_" ++ toString i)).zip
          ((List.range k).map (fun i => toString gjid ++ "_" ++ toString i))).map (fun p =>
            [ArrayEff.registerWatch (pyFormat OUTFILE_FMT p.1) p.2,
             ArrayEff.tableInsert p.2 p.1])).flatten := by
    simp [submit_array, hb0, hmod, hdiv]
  refine ⟨?_, by simp, fun i hi => ?_, fun i hi => ?_⟩
  · simp [submit_array, hb0, hmod, hdiv]
  · rw [List.get?_map, List.get?_range hi]
    rfl
  · refine ⟨?_, pySlice_length args b k i hlen hi,
      fun j hj => pySlice_get? args b i j hj,
      fun j hj => pySlice_get? (args.map (fun _ => emptyKw)) b i j hj⟩
    rw [heff]
    rw [List.get?_append (by simpa using hi), List.get?_map, List.get?_range hi]
    rfl

/-- Witness for the partition theorem: 12 arguments in batches of 4 give
exactly 3 futures. -/
theorem submit_array_partitions_witness :
    (0 < 4 ∧ 0 < 3 ∧ (List.range 12).length = 4 * 3) ∧
    ((submit_array (List.range 12) [] [] 0 4 "w" 5).result =
      .ok ((List.range 3).map (fun i => toString 5 ++ "_" ++ toString i)) ∧
    ((List.range 3).map (fun i => toString 5 ++ "_" ++ toString i)).length = 3 ∧
    (∀ i, i < 3 →
      ((List.range 3).map (fun i => toString 5 ++ "_" ++ toString i)).get? i =
        some (toString 5 ++ "_" ++ toString i)) ∧
    (∀ i, i < 3 →
      (submit_array (List.range 12) [] [] 0 4 "w" 5).effects.get? i =
        some (ArrayEff.writeInfile (pyFormat INFILE_FMT ("w" ++ "_" ++ toString i))
          (pySlice (4 * i) (4 * (i + 1)) (List.range 12))
          (pySlice (4 * i) (4 * (i + 1)) ((List.range 12).map (fun _ => 0)))) ∧
      (pySlice (4 * i) (4 * (i + 1)) (List.range 12)).length = 4 ∧
      (∀ j, j < 4 → (pySlice (4 * i) (4 * (i + 1)) (List.range 12)).get? j =
        (List.range 12).get? (4 * i + j)) ∧
      (∀ j, j < 4 →
        (pySlice (4 * i) (4 * (i + 1)) ((List.range 12).map (fun _ => 0))).get? j =
          ((List.range 12).map (fun _ => 0)).get? (4 * i + j)))) :=
  ⟨⟨by decide, by decide, by decide⟩,
   submit_array_partitions (List.range 12) [] 0 4 3 "w" 5 (by decide) (by decide) (by decide)⟩

/-- C6: submit_array fails synchronously -- the result is a configuration
error, the effect list is empty (no input artifact written, no scheduler
invocation, no watch registration, no job-table insertion) and the caller's
directive list is not mutated -- whenever the argument count is not evenly
divisible by the batch size, or a non-empty kwargs sequence is supplied whose
length differs from the argument count. -/
theorem submit_array_validation {A K : Type} (args : List A) (addl : List String)
    (kwargs : List K) (emptyKw : K) (b : Nat) (base : String) (gjid : Nat)
    (h : args.length % b ≠ 0 ∨ (kwargs.length ≠ 0 ∧ kwargs.length ≠ args.length)) :
    (∃ e, (submit_array args addl kwargs emptyKw b base gjid).result = .error e) ∧
    (submit_array args addl kwargs emptyKw b base gjid).effects = [] ∧
    (submit_array args addl kwargs emptyKw b base gjid).setupLinesAfter = addl := by
  have key : ∃ e, submit_array args addl kwargs emptyKw b base gjid =
      { effects := [], setupLinesAfter := addl, result := .error e } := by
    by_cases hkw0 : kwargs.length = 0
    · rcases h with hmod | hpair
      · by_cases hbz : b = 0
        · exact ⟨.zeroDivision, by simp [submit_array, hkw0, hbz]⟩
        · exact ⟨.notDivisible, by simp [submit_array, hkw0, hbz, hmod]⟩
      · exact absurd hkw0 hpair.1
    · by_cases hkeq : kwargs.length = args.length
      · rcases h with hmod | hpair
        · by_cases hbz : b = 0
          · refine ⟨.zeroDivision, ?_⟩
            simp only [submit_array]
            rw [if_neg hkw0, if_neg (by simp [hkeq])]
            simp [hbz]
          · refine ⟨.notDivisible, ?_⟩
            simp only [submit_array]
            rw [if_neg hkw0, if_neg (by simp [hkeq])]
            simp [hbz, hmod]
        · exact absurd hkeq hpair.2
      · exact ⟨.kwargLenMismatch, by simp [submit_array, hkw0, hkeq]⟩
  obtain ⟨e, he⟩ := key
  rw [he]
  exact ⟨⟨e, rfl⟩, rfl, rfl⟩

/-- Witness for the validation theorem: 12 items with batch size 5
(indivisible), and 3 kwarg dicts against 12 items (length mismatch). -/
theorem submit_array_validation_witness :
    ((List.range 12).length % 5 ≠ 0 ∨
      (([] : List Nat).length ≠ 0 ∧ ([] : List Nat).length ≠ (List.range 12).length)) ∧
    (∃ e, (submit_array (List.range 12) ["#SBATCH -p x"] [] 0 5 "w" 5).result = .error e) ∧
    (submit_array (List.range 12) ["#SBATCH -p x"] [] 0 5 "w" 5).effects = [] ∧
    (submit_array (List.range 12) ["#SBATCH -p x"] [] 0 5 "w" 5).setupLinesAfter =
      ["#SBATCH -p x"] ∧
    (∃ e, (submit_array (List.range 12) [] [1, 2, 3] 0 4 "w" 5).result = .error e) ∧
    (submit_array (List.range 12) [] [1, 2, 3] 0 4 "w" 5).effects = [] := by
  have h1 := submit_array_validation (List.range 12) ["#SBATCH -p x"]
    ([] : List Nat) 0 5 "w" 5 (by decide)
  have h2 := submit_array_validation (List.range 12) [] [1, 2, 3] 0 4 "w" 5 (by decide)
  exact ⟨by decide, h1.1, h1.2.1, h1.2.2, h2.1, h2.2.1⟩

/-- Directive-list behaviour of one successful submit_array call: the list
handed to the scheduler adapter, which is also what remains in the caller's
list object afterwards, is the input list with the array directive appended. -/
theorem submit_array_setupLines {A K : Type} (args : List A) (addl : List String)
    (emptyKw : K) (b : Nat) (base : String) (gjid : Nat)
    (hb : b ≠ 0) (hmod : args.length % b = 0) :
    (submit_array args addl [] emptyKw b base gjid).setupLinesAfter =
      addl ++ [sbatchArrayLine (args.length / b)] ∧
    ArrayEff.sbatchArraySubmit (addl ++ [sbatchArrayLine (args.length / b)]) ∈
      (submit_array args addl [] emptyKw b base gjid).effects := by
  constructor
  · simp [submit_array, hb, hmod]
  · simp [submit_array, hb, hmod]

/-- The list bound to the additional_setup_lines default argument is created
once, when the interpreter evaluates the def line (cfut/__init__.py line 167),
and shared by every call that omits the argument; the append at line 200
mutates it in place.  This gives its contents after n successful calls that
all used the default. -/
def defaultLinesAfter {A K : Type} (args : List A) (emptyKw : K) (b : Nat)
    (base : String) (gjid : Nat) : Nat → List String
  | 0 => []
  | n + 1 =>
    (submit_array args (defaultLinesAfter args emptyKw b base gjid n) []
      emptyKw b base gjid).setupLinesAfter

/-- C9: submit_array appends the array directive to the caller-supplied
directive list in place, so the adapter sees the caller's list plus one
array line; and since the default argument is one shared list object, after n
default-argument calls that list holds n array lines -- each further call
accumulates one more directive than the previous one. -/
theorem submit_array_mutates_shared_default {A K : Type} (args : List A)
    (addl : List String) (emptyKw : K) (b : Nat) (base : String) (gjid : Nat)
    (n : Nat) (hb : b ≠ 0) (hmod : args.length % b = 0) :
    (submit_array args addl [] emptyKw b base gjid).setupLinesAfter =
      addl ++ [sbatchArrayLine (args.length / b)] ∧
    ArrayEff.sbatchArraySubmit (addl ++ [sbatchArrayLine (args.length / b)]) ∈
      (submit_array args addl [] emptyKw b base gjid).effects ∧
    defaultLinesAfter args emptyKw b base gjid (n + 1) =
      defaultLinesAfter args emptyKw b base gjid n ++
        [sbatchArrayLine (args.length / b)] ∧
    (defaultLinesAfter args emptyKw b base gjid n).length = n := by
  refine ⟨(submit_array_setupLines args addl emptyKw b base gjid hb hmod).1,
          (submit_array_setupLines args addl emptyKw b base gjid hb hmod).2, ?_, ?_⟩
  · exact (submit_array_setupLines args
      (defaultLinesAfter args emptyKw b base gjid n) emptyKw b base gjid hb hmod).1
  · induction n with
    | zero => rfl
    | succ m ih =>
      simp only [defaultLinesAfter]
      rw [(submit_array_setupLines args
        (defaultLinesAfter args emptyKw b base gjid m) emptyKw b base gjid hb hmod).1]
      simp [ih]

/-- Witness for the default-directive accumulation theorem. -/
theorem submit_array_mutates_shared_default_witness :
    ((2 : Nat) ≠ 0 ∧ (List.range 4).length % 2 = 0) ∧
    ((submit_array (List.range 4) ["#SBATCH -p x"] [] 0 2 "w" 9).setupLinesAfter =
      ["#SBATCH -p x"] ++ [sbatchArrayLine ((List.range 4).length / 2)] ∧
    ArrayEff.sbatchArraySubmit
        (["#SBATCH -p x"] ++ [sbatchArrayLine ((List.range 4).length / 2)]) ∈
      (submit_array (List.range 4) ["#SBATCH -p x"] [] 0 2 "w" 9).effects ∧
    defaultLinesAfter (List.range 4) 0 2 "w" 9 (2 + 1) =
      defaultLinesAfter (List.range 4) 0 2 "w" 9 2 ++
        [sbatchArrayLine ((List.range 4).length / 2)] ∧
    (defaultLinesAfter (List.range 4) 0 2 "w" 9 2).length = 2) :=
  ⟨⟨by decide, by decide⟩,
   submit_array_mutates_shared_default (List.range 4) ["#SBATCH -p x"] 0 2 "w" 9 2
     (by decide) (by decide)⟩

/-! ### map (cfut/__init__.py lines 236-247) -/

/-- The futures list built by the submission loop of map: one job is submitted
per item, in item order, before any result is consumed; the future of item i
resolves to f applied to item i. -/
def mapFuts {A B : Type} (f : A → B) (args : List A) : List B :=
  args.foldl (fun futs a => futs ++ [f a]) []

/-- The values yielded by map: with ordered true the result loop iterates the
futures in submission order; otherwise it iterates futures.as_completed, i.e.
in completion order, given here as the list of item indices in the order their
jobs complete. -/
def mapYields {A B : Type} (f : A → B) (args : List A) (ordered : Bool)
    (completionOrder : List Nat) : List B :=
  if ordered then mapFuts f args
  else completionOrder.filterMap (fun i => (mapFuts f args).get? i)

theorem mapFuts_eq_map {A B : Type} (f : A → B) (args : List A) :
    mapFuts f args = args.map f := by
  suffices h : ∀ acc : List B,
      args.foldl (fun futs a => futs ++ [f a]) acc = acc ++ args.map f by
    simpa [mapFuts] using h []
  induction args with
  | nil => intro acc; simp
  | cons a args ih => intro acc; simp [List.foldl_cons, ih]

theorem range_filterMap_get? {B : Type} (l : List B) :
    (List.range l.length).filterMap (fun i => l.get? i) = l := by
  induction l with
  | nil => rfl
  | cons x xs ih =>
    rw [List.length_cons, List.range_succ_eq_map, List.filterMap_cons]
    simp only [List.get?]
    rw [List.filterMap_map]
    have hcomp : ((fun i => (x :: xs).get? i) ∘ Nat.succ) = fun i => xs.get? i := by
      funext i
      rfl
    rw [hcomp, ih]

/-- C8: map submits one job per item and, with ordered true, yields exactly
the per-item results in submission order whatever the completion order is;
with ordered false it yields the same multiset of results in completion
order. -/
theorem map_yields_order {A B : Type} (f : A → B) (args : List A)
    (co : List Nat) (hco : co.Perm (List.range args.length)) :
    mapYields f args true co = args.map f ∧
    (mapYields f args false co).Perm (args.map f) := by
  constructor
  · simp [mapYields, mapFuts_eq_map]
  · have h1 : mapYields f args false co =
        co.filterMap (fun i => (args.map f).get? i) := by
      simp [mapYields, mapFuts_eq_map]
    rw [h1]
    have h2 := hco.filterMap (fun i => (args.map f).get? i)
    have h3 : (List.range args.length).filterMap (fun i => (args.map f).get? i) =
        args.map f := by
      have h4 := range_filterMap_get? (args.map f)
      simpa [List.length_map] using h4
    refine h2.trans ?_
    rw [h3]

/-- Witness for the map theorem: three items whose jobs complete in the order
3, 1, 2; the ordered map still yields results in submission order. -/
theorem map_yields_order_witness :
    ([2, 0, 1] : List Nat).Perm (List.range ([1, 2, 3] : List Nat).length) ∧
    (mapYields (fun n => n * 10) [1, 2, 3] true [2, 0, 1] =
      ([1, 2, 3].map (fun n => n * 10)) ∧
    (mapYields (fun n => n * 10) [1, 2, 3] false [2, 0, 1]).Perm
      ([1, 2, 3].map (fun n => n * 10))) :=
  ⟨by decide, map_yields_order (fun n => n * 10) [1, 2, 3] [2, 0, 1] (by decide)⟩

end Cfut
